import Mathlib

/-
  Verification development for the Codecore pet-management application
  (src/app.py, src/models.py).  The data model and the request handlers
  relevant to the frozen claims are shallowly embedded below; theorems
  settle the claims against this embedding.
-/

namespace Codecore

/-! ## Data model (src/models.py) -/

/-- User row (models.py, class User): id, name, email (unique), password_hash,
role (default "owner"), optional city. -/
structure User where
  id : Nat
  name : String
  email : String
  password_hash : String
  role : String
  city : Option String
deriving Repr, DecidableEq

/-- Pet row (models.py, class Pet), restricted to the columns written by
`add_pet` in app.py; the remaining columns (color, weight_kg, vaccinated, ...)
are never set by the embedded handler and default to NULL/False. -/
structure Pet where
  id : Nat
  name : String
  species : String
  breed : Option String
  age : Int
  gender : Option String
  is_for_adoption : Bool
  is_for_mating : Bool
  health_notes : Option String
  owner_id : Nat
  city : Option String
  address : Option String
  image : Option String
deriving Repr, DecidableEq

/-- The relational store, restricted to the tables the claims touch.
`nextUserId`/`nextPetId` model the autoincrement primary keys. -/
structure Store where
  users : List User
  pets : List Pet
  nextUserId : Nat
  nextPetId : Nat
deriving Repr, DecidableEq

/-! ## Library models

The hashing and filename-sanitizing collaborators are third-party libraries
(flask_bcrypt, werkzeug), not part of the repository sources. -/

/-- Modelled from the spec: the Password Hasher contract (spec section 4.1,
`hash(plaintext) -> opaque digest string`), standing in for
`flask_bcrypt.Bcrypt.generate_password_hash`, whose implementation is not in
the repository.  Deterministic model: verification succeeds exactly on the
hashed plaintext. -/
def generate_password_hash (plaintext : String) : String :=
  "bcrypt2b$" ++ plaintext

/-- Modelled from the spec: `verify(plaintext, digest) -> bool` (spec section
4.1), standing in for `flask_bcrypt.Bcrypt.check_password_hash`. -/
def check_password_hash (digest plaintext : String) : Bool :=
  digest == generate_password_hash plaintext

/-- Modelled from the spec: filename sanitization (spec section 4.4,
"sanitize the filename to remove path-traversal and unsafe characters"),
standing in for `werkzeug.utils.secure_filename`, whose implementation is
not in the repository.  Keeps ASCII alphanumerics, dot, dash, underscore. -/
def secure_filename (filename : String) : String :=
  String.mk (filename.data.filter
    (fun c => c.isAlphanum || c == '.' || c == '-' || c == '_'))

/-! ## Form access

A submitted HTML form is a list of key/value pairs.  `request.form.get(k)`
returns the first value for `k` (or None); `request.form[k]` raises KeyError
when absent; `k in request.form` is key membership. -/

/-- A submitted form: ordered key/value pairs. -/
def Form : Type := List (String × String)

/-- The value of key `k` in the form, if present (`request.form.get(k)`). -/
def formGet (form : Form) (k : String) : Option String :=
  (List.find? (fun p => p.1 == k) form).map (fun p => p.2)

/-- Whether key `k` occurs in the form (`k in request.form`). -/
def formHas (form : Form) (k : String) : Bool :=
  List.any form (fun p => p.1 == k)

/-! ## Python `int()` parsing

`add_pet` runs `int(request.form.get("age") or 0)`.  `pyInt?` models Python's
`int(str)` on ASCII input: optional surrounding whitespace, an optional sign,
then a nonempty digit run in which single underscores may separate digits. -/

/-- Characters stripped by Python `int()` around the numeral. -/
def isPySpace (c : Char) : Bool :=
  c == ' ' || c == '\t' || c == '\n' || c == '\r' || c == '\x0b' || c == '\x0c'

/-- Strip leading and trailing whitespace from a character list. -/
def pyStrip (cs : List Char) : List Char :=
  ((cs.dropWhile isPySpace).reverse.dropWhile isPySpace).reverse

/-- After an initial digit: digits, with single underscores allowed only
between digits. -/
def digitTail : List Char → Bool
  | [] => true
  | '_' :: [] => false
  | '_' :: d :: rest => d.isDigit && digitTail rest
  | c :: rest => c.isDigit && digitTail rest

/-- A valid Python integer digit run: nonempty, starts with a digit,
underscores only single and between digits. -/
def pyIntDigits : List Char → Bool
  | [] => false
  | c :: rest => c.isDigit && digitTail rest

/-- Numeric value of a digit run, ignoring underscores. -/
def digitsVal (cs : List Char) : Nat :=
  (cs.filter (fun c => c != '_')).foldl (fun acc c => acc * 10 + (c.toNat - 48)) 0

/-- The sign-and-digit-run part of Python `int()`, applied to the stripped
character list. -/
def pyIntCore : List Char → Option Int
  | [] => none
  | c :: rest =>
      if c == '+' then
        if pyIntDigits rest then some (digitsVal rest) else none
      else if c == '-' then
        if pyIntDigits rest then some (-(digitsVal rest : Int)) else none
      else
        if pyIntDigits (c :: rest) then some (digitsVal (c :: rest)) else none

/-- Python `int(s)` for ASCII input: `some n` on success, `none` when
`int()` would raise ValueError. -/
def pyInt? (s : String) : Option Int :=
  pyIntCore (pyStrip s.data)

/-! ## Password strength regex (app.py, register)

The route matches the password against
`^(?=.*[a-z])(?=.*[A-Z])(?=.*\d)(?=.*[\W_]).{8,}$` with `re.match`.  On
ASCII input the semantics are: `.` does not match a newline and `$` also
matches just before one trailing newline, so the body `.{8,}$` matches iff,
after dropping at most one trailing newline, the remainder (the core) is
newline-free and at least 8 characters long.  Each lookahead `(?=.*[X])`
scans `.*` over the newline-free prefix and then tests one character, which
may be the trailing newline itself: `[a-z]`, `[A-Z]` and `\d` never match a
newline, so those classes must occur inside the core, but `[\W_]` (the
complement of `[A-Za-z0-9_]` together with the underscore, i.e. the
non-alphanumeric characters) contains the newline, so that lookahead is
satisfied either by a non-alphanumeric character in the core or by the
trailing newline. -/
def password_pattern_match (password : String) : Bool :=
  let cs := password.data
  let core := if cs.getLast? == some '\n' then cs.dropLast else cs
  (!core.contains '\n') && decide (core.length ≥ 8) &&
    core.any Char.isLower && core.any Char.isUpper &&
    core.any Char.isDigit &&
    (core.any (fun c => !c.isAlphanum) || cs.getLast? == some '\n')

/-! ## Image upload (app.py) -/

/-- An uploaded file as seen by `request.files.get`: only the client-supplied
filename matters to the embedded logic. -/
structure UploadedFile where
  filename : String
deriving Repr, DecidableEq

/-- `allowed_file` (app.py line 32): the filename contains a dot and the part
after the last dot, lowercased, is one of png, jpg, jpeg, gif. -/
def allowed_file (filename : String) : Bool :=
  filename.data.contains '.' &&
    (["png", "jpg", "jpeg", "gif"].contains
      (String.mk (((filename.data.reverse.takeWhile (fun c => c != '.')).reverse).map Char.toLower)))

/-- The filename stored on the Pet row: the upload is accepted only when a
file is present, its name is nonempty, and `allowed_file` holds; otherwise
the image silently stays None (app.py lines 204-211). -/
def uploadResult (img : Option UploadedFile) : Option String :=
  match img with
  | some f =>
      if f.filename != "" && allowed_file f.filename then
        some (secure_filename f.filename)
      else none
  | none => none

/-! ## Registration (app.py, register, POST branch) -/

/-- Outcome of a POST to /register: which flash is shown and where the user
is redirected. -/
inductive RegisterOutcome
  | emailExists
  | weakPassword
  | success
deriving Repr, DecidableEq

/-- The flash message attached to a registration outcome (app.py lines
97, 110-114, 130). -/
def registerFlash : RegisterOutcome → String
  | .emailExists => "Email already registered"
  | .weakPassword =>
      "Password must be at least 8 characters and include uppercase, lowercase, number, and special character."
  | .success => "Registration successful. Please login."

/-- `register` (app.py lines 86-131, POST): duplicate-email check first,
then the password-strength regex, then hash and insert with the supplied
role (default "owner") and optional city. -/
def register (s : Store) (name email password : String)
    (role? city? : Option String) : Store × RegisterOutcome :=
  if (List.find? (fun u => u.email == email) s.users).isSome then
    (s, .emailExists)
  else if !password_pattern_match password then
    (s, .weakPassword)
  else
    let user : User :=
      { id := s.nextUserId
        name := name
        email := email
        password_hash := generate_password_hash password
        role := role?.getD "owner"
        city := city? }
    ({ s with users := s.users ++ [user], nextUserId := s.nextUserId + 1 },
     .success)

/-! ## Login and sessions (app.py, login / load_user) -/

/-- Result of a POST to /login: on success the session now holds the user's
id; on failure a flash message is shown. -/
inductive LoginResult
  | success (sessionUserId : Nat) (flash : String)
  | failure (flash : String)
deriving Repr, DecidableEq

/-- `login` (app.py lines 136-150, POST): look up the first user with the
submitted email; verify the password against the stored hash; the two
failure causes share one generic flash. -/
def login (s : Store) (email password : String) : LoginResult :=
  match List.find? (fun u => u.email == email) s.users with
  | some user =>
      if check_password_hash user.password_hash password then
        .success user.id "Logged in successfully"
      else
        .failure "Invalid email or password"
  | none => .failure "Invalid email or password"

/-- The flash message of a login result. -/
def loginFlash : LoginResult → String
  | .success _ f => f
  | .failure f => f

/-- Whether a login result is a failure. -/
def loginFailed : LoginResult → Bool
  | .success _ _ => false
  | .failure _ => true

/-- `load_user` (app.py lines 46-48): resolve a session-stored user id back
to a User row, `User.query.get(int(user_id))`. -/
def load_user (s : Store) (user_id : Nat) : Option User :=
  List.find? (fun u => u.id == user_id) s.users

/-! ## Logout (app.py, logout) -/

/-- The session state of a request: anonymous or authenticated as a user id.
Modelled from the spec: the Session/Auth Manager (spec section 4.2) of
flask_login, whose implementation is not in the repository; `login_required`
redirects an anonymous request to the login view without running the route
body. -/
inductive Session
  | anonymous
  | authed (userId : Nat)
deriving Repr, DecidableEq

/-- Response of a GET to /logout. -/
inductive LogoutResponse
  | loginRequiredRedirect
  | loggedOut
deriving Repr, DecidableEq

/-- `logout` (app.py lines 153-158) together with its `login_required`
decorator: an authenticated session is cleared and redirected to login with
the "Logged out" flash; an anonymous request is intercepted by the decorator
and redirected to the login view, the handler body never runs. -/
def logout_route : Session → Session × LogoutResponse
  | .anonymous => (.anonymous, .loginRequiredRedirect)
  | .authed _ => (.anonymous, .loggedOut)

/-! ## Bootstrap seeding (app.py, create_admin_and_vet) -/

/-- The default admin account inserted by the bootstrap (app.py lines 53-61),
with the autoincrement id it receives. -/
def defaultAdmin (uid : Nat) : User :=
  { id := uid
    name := "Super Admin"
    email := "admin@janvar.com"
    password_hash := generate_password_hash "admin123"
    role := "admin"
    city := none }

/-- The default vet account inserted by the bootstrap (app.py lines 63-72). -/
def defaultVet (uid : Nat) : User :=
  { id := uid
    name := "Dr. Meow Bark"
    email := "vet@example.com"
    password_hash := generate_password_hash "vet123"
    role := "vet"
    city := none }

/-- First half of `create_admin_and_vet`: insert the default admin account
if no user has its email. -/
def seedAdmin (s : Store) : Store :=
  if (List.find? (fun u => u.email == "admin@janvar.com") s.users).isSome then s
  else
    { s with
      users := s.users ++ [defaultAdmin s.nextUserId]
      nextUserId := s.nextUserId + 1 }

/-- Second half of `create_admin_and_vet`: insert the default vet account if
no user has its email.  The vet existence query runs after the admin insert
(the ORM session sees the pending insert). -/
def seedVet (s : Store) : Store :=
  if (List.find? (fun u => u.email == "vet@example.com") s.users).isSome then s
  else
    { s with
      users := s.users ++ [defaultVet s.nextUserId]
      nextUserId := s.nextUserId + 1 }

/-- `create_admin_and_vet` (app.py lines 51-74): insert the default admin
account if no user has its email, then the default vet account if no user
has its email. -/
def create_admin_and_vet (s : Store) : Store :=
  seedVet (seedAdmin s)

/-- Number of users in the store carrying a given email. -/
def emailCount (s : Store) (e : String) : Nat :=
  (s.users.filter (fun u => u.email == e)).length

/-! ## Pet creation (app.py, add_pet) -/

/-- The exception a POST to /pets/add can raise before any row is written:
KeyError on a missing required form key, ValueError from `int()` on a
non-numeric age. -/
inductive AddPetError
  | keyError
  | valueError
deriving Repr, DecidableEq

/-- The age stored by `int(request.form.get("age") or 0)`: an absent or
empty age input yields 0; otherwise Python `int()` parsing, whose failure
raises ValueError. -/
def ageVal? (form : Form) : Option Int :=
  match formGet form "age" with
  | none => some 0
  | some a => if a == "" then some 0 else pyInt? a

/-- `add_pet` (app.py lines 190-231): read the form in source order (name
and species are required lookups, the rest default), parse the age, decide
the upload, and insert the Pet with `owner_id` from the session user and
`city` from the session user's city attribute.  An exception leaves the
store unwritten. -/
def add_pet (s : Store) (u : User) (form : Form) (img : Option UploadedFile) :
    Except AddPetError Store :=
  match formGet form "name" with
  | none => .error .keyError
  | some name =>
    match formGet form "species" with
    | none => .error .keyError
    | some species =>
      match ageVal? form with
      | none => .error .valueError
      | some age =>
        let pet : Pet :=
          { id := s.nextPetId
            name := name
            species := species
            breed := formGet form "breed"
            age := age
            gender := formGet form "gender"
            is_for_adoption := formHas form "is_for_adoption"
            is_for_mating := formHas form "is_for_mating"
            health_notes := formGet form "health_notes"
            owner_id := u.id
            city := u.city
            address := formGet form "address"
            image := uploadResult img }
        .ok { s with pets := s.pets ++ [pet], nextPetId := s.nextPetId + 1 }

/-- HTTP-level response of a POST to /pets/add. -/
inductive AddPetResponse
  | redirectDashboard (flash : String)
  | httpError (e : AddPetError)
deriving Repr, DecidableEq

/-- The route wrapper around `add_pet`: on success the new store and a
redirect to the dashboard with the success flash; on an exception the store
is unchanged and an error response is produced. -/
def add_pet_route (s : Store) (u : User) (form : Form)
    (img : Option UploadedFile) : Store × AddPetResponse :=
  match add_pet s u form img with
  | .ok s2 => (s2, .redirectDashboard "Pet added successfully")
  | .error e => (s, .httpError e)

/-! ## Concrete fixtures used by witnesses and counterexamples -/

/-- A registered owner with a city, as created by a successful
registration. -/
def aliceUser : User :=
  { id := 1
    name := "Alice"
    email := "alice@x.com"
    password_hash := generate_password_hash "Str0ng!Pass"
    role := "owner"
    city := some "Pune" }

/-- A store holding exactly the one registered owner. -/
def baseStore : Store :=
  { users := [aliceUser], pets := [], nextUserId := 2, nextPetId := 1 }

/-- A store in which an ordinary owner account already occupies the default
admin email. -/
def eveStore : Store :=
  { users := [{ id := 1
                name := "Eve"
                email := "admin@janvar.com"
                password_hash := generate_password_hash "Evepass1!"
                role := "owner"
                city := none }]
    pets := []
    nextUserId := 2
    nextPetId := 1 }

/-- A pet-creation form that also smuggles an owner value. -/
def rexForm : Form :=
  [("name", "Rex"), ("species", "dog"), ("owner", "999")]

/-- A pet-creation form with no age key. -/
def rexFormNoAge : Form :=
  [("name", "Rex"), ("species", "dog")]

/-- A pet-creation form with a negative numeric age. -/
def rexFormNegAge : Form :=
  [("name", "Rex"), ("species", "dog"), ("age", "-5")]

/-- A pet-creation form with an ordinary numeric age. -/
def rexFormAge7 : Form :=
  [("name", "Rex"), ("species", "dog"), ("age", "7")]

/-- A pet-creation form that supplies its own city and an address. -/
def rexFormCity : Form :=
  [("name", "Rex"), ("species", "dog"), ("city", "Goa"), ("address", "12 Lane")]

/-- An uploaded file with a disallowed extension. -/
def badUpload : UploadedFile := { filename := "virus.exe" }

/-! ## Shared helper lemmas -/

/-- Looking up a key skips a leading pair with a different key. -/
lemma formGet_cons_ne (k2 v : String) (form : Form) (k : String)
    (h : (k2 == k) = false) :
    formGet ((k2, v) :: form) k = formGet form k := by
  simp only [formGet, List.find?_cons, h]

/-- Key membership ignores a leading pair with a different key. -/
lemma formHas_cons_ne (k2 v : String) (form : Form) (k : String)
    (h : (k2 == k) = false) :
    formHas ((k2, v) :: form) k = formHas form k := by
  simp only [formHas, List.any_cons, h, Bool.false_or]

/-- Stripping whitespace only removes characters. -/
lemma mem_of_mem_pyStrip {c : Char} {cs : List Char} (h : c ∈ pyStrip cs) :
    c ∈ cs := by
  unfold pyStrip at h
  rw [List.mem_reverse] at h
  have h2 := (List.dropWhile_sublist isPySpace).mem h
  rw [List.mem_reverse] at h2
  exact (List.dropWhile_sublist isPySpace).mem h2

/-- The core parser yields a non-negative integer when no minus sign is
present. -/
lemma pyIntCore_nonneg {cs : List Char} {n : Int} (hm : ('-' : Char) ∉ cs)
    (h : pyIntCore cs = some n) : 0 ≤ n := by
  cases cs with
  | nil => exact absurd h (by simp [pyIntCore])
  | cons c rest =>
    simp only [pyIntCore] at h
    have hcne : (c == '-') = false := by
      refine beq_eq_false_iff_ne.mpr ?_
      intro hEq
      exact hm (hEq ▸ List.mem_cons_self c rest)
    rw [hcne] at h
    simp only [Bool.false_eq_true, if_false] at h
    split at h
    · split at h
      · have h2 := Option.some.inj h
        omega
      · exact absurd h (by simp)
    · split at h
      · have h2 := Option.some.inj h
        omega
      · exact absurd h (by simp)

/-- A numeral without a minus sign parses to a non-negative integer. -/
lemma pyInt?_nonneg {a : String} {n : Int} (hm : ('-' : Char) ∉ a.data)
    (h : pyInt? a = some n) : 0 ≤ n := by
  unfold pyInt? at h
  refine pyIntCore_nonneg ?_ h
  intro hc
  exact hm (mem_of_mem_pyStrip hc)

/-- The stored age is non-negative whenever the age input carries no minus
sign. -/
lemma ageVal?_nonneg {form : Form} {n : Int}
    (hm : ∀ a, formGet form "age" = some a → ('-' : Char) ∉ a.data)
    (h : ageVal? form = some n) : 0 ≤ n := by
  cases ha : formGet form "age" with
  | none =>
    simp only [ageVal?, ha] at h
    cases Option.some.inj h
    omega
  | some a =>
    simp only [ageVal?, ha] at h
    by_cases he : (a == "") = true
    · rw [if_pos he] at h
      cases Option.some.inj h
      omega
    · rw [if_neg he] at h
      exact pyInt?_nonneg (hm a ha) h

/-- A form key that `add_pet` never reads does not influence it. -/
lemma add_pet_ignores_key (s : Store) (u : User) (form : Form)
    (img : Option UploadedFile) (k v : String)
    (hk : (k == "name") = false ∧ (k == "species") = false ∧
          (k == "age") = false ∧ (k == "breed") = false ∧
          (k == "gender") = false ∧ (k == "is_for_adoption") = false ∧
          (k == "is_for_mating") = false ∧ (k == "health_notes") = false ∧
          (k == "address") = false) :
    add_pet s u ((k, v) :: form) img = add_pet s u form img := by
  obtain ⟨h1, h2, h3, h4, h5, h6, h7, h8, h9⟩ := hk
  unfold add_pet ageVal?
  rw [formGet_cons_ne k v form "name" h1, formGet_cons_ne k v form "species" h2,
    formGet_cons_ne k v form "age" h3, formGet_cons_ne k v form "breed" h4,
    formGet_cons_ne k v form "gender" h5, formGet_cons_ne k v form "health_notes" h8,
    formGet_cons_ne k v form "address" h9,
    formHas_cons_ne k v form "is_for_adoption" h6,
    formHas_cons_ne k v form "is_for_mating" h7]

/-! ## Bootstrap seeding lemmas -/

/-- With pairwise distinct emails, at most one user carries any email. -/
lemma count_le_one_of_nodup :
    ∀ (l : List User) (e : String), (l.map User.email).Nodup →
      (l.filter (fun u => u.email == e)).length ≤ 1
  | [], _, _ => by simp
  | u :: l, e, h => by
    rw [List.map_cons, List.nodup_cons] at h
    by_cases hu : u.email = e
    · rw [List.filter_cons_of_pos (by simpa using hu)]
      have hnil : l.filter (fun x => x.email == e) = [] := by
        rw [List.filter_eq_nil_iff]
        intro x hx hxe
        have hmem : x.email ∈ l.map User.email := List.mem_map_of_mem User.email hx
        rw [beq_iff_eq] at hxe
        rw [hxe, ← hu] at hmem
        exact h.1 hmem
      simp [hnil]
    · rw [List.filter_cons_of_neg (by simpa using hu)]
      exact count_le_one_of_nodup l e h.2

/-- A stored user with the email makes the filter nonempty. -/
lemma one_le_count_of_mem {l : List User} {e : String} {u : User}
    (hu : u ∈ l) (he : u.email = e) :
    1 ≤ (l.filter (fun x => x.email == e)).length := by
  have hmem : u ∈ l.filter (fun x => x.email == e) :=
    List.mem_filter.mpr ⟨hu, by simpa using he⟩
  exact List.length_pos.mpr (List.ne_nil_of_mem hmem)

/-- Whatever `seedAdmin` does, every prior user survives. -/
lemma mem_seedAdmin_of_mem {s : Store} {u : User} (h : u ∈ s.users) :
    u ∈ (seedAdmin s).users := by
  unfold seedAdmin
  split
  · exact h
  · exact List.mem_append_left _ h

/-- Whatever `seedVet` does, every prior user survives. -/
lemma mem_seedVet_of_mem {s : Store} {u : User} (h : u ∈ s.users) :
    u ∈ (seedVet s).users := by
  unfold seedVet
  split
  · exact h
  · exact List.mem_append_left _ h

/-- After `seedAdmin` a user with the default admin email exists. -/
lemma seedAdmin_exists (s : Store) :
    ∃ u ∈ (seedAdmin s).users, u.email = "admin@janvar.com" := by
  unfold seedAdmin
  split
  · next h =>
    obtain ⟨u, hu⟩ := Option.isSome_iff_exists.mp h
    exact ⟨u, List.mem_of_find?_eq_some hu, by simpa using List.find?_some hu⟩
  · exact ⟨defaultAdmin s.nextUserId, by simp, rfl⟩

/-- After `seedVet` a user with the default vet email exists. -/
lemma seedVet_exists (s : Store) :
    ∃ u ∈ (seedVet s).users, u.email = "vet@example.com" := by
  unfold seedVet
  split
  · next h =>
    obtain ⟨u, hu⟩ := Option.isSome_iff_exists.mp h
    exact ⟨u, List.mem_of_find?_eq_some hu, by simpa using List.find?_some hu⟩
  · exact ⟨defaultVet s.nextUserId, by simp, rfl⟩

/-- When both default emails are present, the bootstrap changes nothing. -/
lemma create_eq_of_exists {s : Store}
    (ha : ∃ u ∈ s.users, u.email = "admin@janvar.com")
    (hv : ∃ u ∈ s.users, u.email = "vet@example.com") :
    create_admin_and_vet s = s := by
  have h1 : (List.find? (fun u => u.email == "admin@janvar.com") s.users).isSome :=
    List.find?_isSome.mpr (by simpa using ha)
  have hA : seedAdmin s = s := by
    unfold seedAdmin
    rw [if_pos h1]
  have h2 : (List.find? (fun u => u.email == "vet@example.com") s.users).isSome :=
    List.find?_isSome.mpr (by simpa using hv)
  unfold create_admin_and_vet
  rw [hA]
  unfold seedVet
  rw [if_pos h2]

/-- The vet insert never touches the admin-email filter. -/
lemma filter_admin_seedVet (s : Store) :
    (seedVet s).users.filter (fun u => u.email == "admin@janvar.com") =
      s.users.filter (fun u => u.email == "admin@janvar.com") := by
  unfold seedVet
  split
  · rfl
  · simp [List.filter_append, defaultVet]

/-- The admin insert never touches the vet-email filter. -/
lemma filter_vet_seedAdmin (s : Store) :
    (seedAdmin s).users.filter (fun u => u.email == "vet@example.com") =
      s.users.filter (fun u => u.email == "vet@example.com") := by
  unfold seedAdmin
  split
  · rfl
  · simp [List.filter_append, defaultAdmin]

/-- After `seedAdmin`, exactly one user carries the admin email, provided
the prior emails were pairwise distinct. -/
lemma count_admin_seedAdmin (s : Store)
    (hnd : (s.users.map User.email).Nodup) :
    ((seedAdmin s).users.filter
      (fun u => u.email == "admin@janvar.com")).length = 1 := by
  unfold seedAdmin
  split
  · next h =>
    obtain ⟨u, hu⟩ := Option.isSome_iff_exists.mp h
    have hle := count_le_one_of_nodup s.users "admin@janvar.com" hnd
    have hge := one_le_count_of_mem (List.mem_of_find?_eq_some hu)
      (by simpa using List.find?_some hu)
    omega
  · next h =>
    have hnone := Option.not_isSome_iff_eq_none.mp h
    have hnil : s.users.filter (fun u => u.email == "admin@janvar.com") = [] := by
      rw [List.filter_eq_nil_iff]
      intro x hx
      exact (List.find?_eq_none.mp hnone) x hx
    simp [List.filter_append, hnil, defaultAdmin]

/-- After `seedVet`, exactly one user carries the vet email, provided the
prior emails were pairwise distinct. -/
lemma count_vet_seedVet (s : Store)
    (hnd : (s.users.map User.email).Nodup) :
    ((seedVet s).users.filter
      (fun u => u.email == "vet@example.com")).length = 1 := by
  unfold seedVet
  split
  · next h =>
    obtain ⟨u, hu⟩ := Option.isSome_iff_exists.mp h
    have hle := count_le_one_of_nodup s.users "vet@example.com" hnd
    have hge := one_le_count_of_mem (List.mem_of_find?_eq_some hu)
      (by simpa using List.find?_some hu)
    omega
  · next h =>
    have hnone := Option.not_isSome_iff_eq_none.mp h
    have hnil : s.users.filter (fun u => u.email == "vet@example.com") = [] := by
      rw [List.filter_eq_nil_iff]
      intro x hx
      exact (List.find?_eq_none.mp hnone) x hx
    simp [List.filter_append, hnil, defaultVet]

/-- `seedAdmin` preserves distinctness of emails. -/
lemma seedAdmin_nodup {s : Store} (hnd : (s.users.map User.email).Nodup) :
    ((seedAdmin s).users.map User.email).Nodup := by
  unfold seedAdmin
  split
  · exact hnd
  · next h =>
    have hnone := Option.not_isSome_iff_eq_none.mp h
    have habs : ∀ x ∈ s.users, x.email ≠ "admin@janvar.com" := by
      intro x hx
      have := (List.find?_eq_none.mp hnone) x hx
      simpa using this
    simp only [List.map_append, List.nodup_append]
    refine ⟨hnd, by simp [defaultAdmin], ?_⟩
    intro e he
    simp only [List.map_cons, List.map_nil, defaultAdmin, List.mem_singleton]
    obtain ⟨x, hx, hxe⟩ := List.mem_map.mp he
    intro hcon
    exact habs x hx (by rw [hxe, hcon])

/-! ## Success shape of `add_pet` -/

/-- The Pet row `add_pet` inserts, given the required fields and the parsed
age. -/
def insertedPet (s : Store) (u : User) (form : Form)
    (img : Option UploadedFile) (nm sp : String) (n : Int) : Pet :=
  { id := s.nextPetId
    name := nm
    species := sp
    breed := formGet form "breed"
    age := n
    gender := formGet form "gender"
    is_for_adoption := formHas form "is_for_adoption"
    is_for_mating := formHas form "is_for_mating"
    health_notes := formGet form "health_notes"
    owner_id := u.id
    city := u.city
    address := formGet form "address"
    image := uploadResult img }

/-- Any successful `add_pet` run decomposes into present required fields, a
parsed age, and the store extended by exactly the inserted row. -/
lemma add_pet_ok_shape {s : Store} {u : User} {form : Form}
    {img : Option UploadedFile} {s2 : Store}
    (h : add_pet s u form img = Except.ok s2) :
    ∃ nm sp n, formGet form "name" = some nm ∧
      formGet form "species" = some sp ∧ ageVal? form = some n ∧
      s2 = { s with
        pets := s.pets ++ [insertedPet s u form img nm sp n]
        nextPetId := s.nextPetId + 1 } := by
  cases hn : formGet form "name" with
  | none => simp [add_pet, hn] at h
  | some nm =>
    cases hsp : formGet form "species" with
    | none => simp [add_pet, hn, hsp] at h
    | some sp =>
      cases ha : ageVal? form with
      | none => simp [add_pet, hn, hsp, ha] at h
      | some n =>
        simp only [add_pet, hn, hsp, ha, Except.ok.injEq] at h
        exact ⟨nm, sp, n, rfl, rfl, rfl, h.symm⟩

/-- Conversely, with the required fields present and a parsed age, `add_pet`
succeeds with exactly the inserted row. -/
lemma add_pet_ok_of (s : Store) (u : User) (form : Form)
    (img : Option UploadedFile) {nm sp : String} {n : Int}
    (hn : formGet form "name" = some nm)
    (hsp : formGet form "species" = some sp)
    (ha : ageVal? form = some n) :
    add_pet s u form img = Except.ok
      { s with
        pets := s.pets ++ [insertedPet s u form img nm sp n]
        nextPetId := s.nextPetId + 1 } := by
  simp only [add_pet, hn, hsp, ha]
  rfl

/-- Every failing login carries the one generic flash message. -/
lemma loginFlash_of_failed (s : Store) (email password : String)
    (h : loginFailed (login s email password) = true) :
    loginFlash (login s email password) = "Invalid email or password" := by
  cases hf : List.find? (fun x => x.email == email) s.users with
  | none => simp [login, hf, loginFlash]
  | some u =>
    by_cases hc : check_password_hash u.password_hash password = true
    · rw [show login s email password =
        LoginResult.success u.id "Logged in successfully" by simp [login, hf, hc]] at h
      simp [loginFailed] at h
    · simp [login, hf, Bool.of_not_eq_true hc, loginFlash]

/-! ## Claim theorems -/

/-- C1: every Pet row inserted by `add_pet` on behalf of session user `u`
has `owner_id = u.id`; an owner value supplied in the form payload does not
influence the run at all. -/
theorem add_pet_owner_is_session_user (s : Store) (u : User) (form : Form)
    (img : Option UploadedFile) (s2 : Store)
    (h : add_pet s u form img = Except.ok s2) :
    s2.pets.map Pet.owner_id = s.pets.map Pet.owner_id ++ [u.id] ∧
    ∀ v : String,
      add_pet s u (("owner", v) :: form) img = add_pet s u form img := by
  constructor
  · obtain ⟨nm, sp, n, hn, hsp, ha, rfl⟩ := add_pet_ok_shape h
    simp [List.map_append, insertedPet]
  · intro v
    exact add_pet_ignores_key s u form img "owner" v (by decide)

/-- Witness for C1: the concrete creation by Alice, with an owner value 999
smuggled into the form, stores owner_id 1 = Alice's id. -/
theorem add_pet_owner_is_session_user_witness :
    (add_pet_route baseStore aliceUser rexForm none).1.pets.map Pet.owner_id =
      [1] := by
  have h := add_pet_owner_is_session_user baseStore aliceUser rexForm none
    ((add_pet_route baseStore aliceUser rexForm none).1) (by rfl)
  simpa [baseStore, aliceUser] using h.1

/-- C3: a login whose email resolves to a stored user and whose password
verifies establishes a session holding that user's id, and the session
resolves back to the same id; a wrong password and an unknown email both
produce a failure, and any two failing logins carry the identical flash
message. -/
theorem login_resolves_and_failure_is_generic (s : Store)
    (email password : String) :
    (∀ u : User, List.find? (fun x => x.email == email) s.users = some u →
      check_password_hash u.password_hash password = true →
        login s email password =
          LoginResult.success u.id "Logged in successfully" ∧
        (load_user s u.id).map User.id = some u.id) ∧
    (∀ u : User, List.find? (fun x => x.email == email) s.users = some u →
      check_password_hash u.password_hash password = false →
        login s email password =
          LoginResult.failure "Invalid email or password") ∧
    (List.find? (fun x => x.email == email) s.users = none →
      login s email password =
        LoginResult.failure "Invalid email or password") ∧
    (∀ (s2 : Store) (e2 p2 : String),
      loginFailed (login s email password) = true →
      loginFailed (login s2 e2 p2) = true →
      loginFlash (login s email password) = loginFlash (login s2 e2 p2)) := by
  refine ⟨?_, ?_, ?_, ?_⟩
  · intro u hf hc
    refine ⟨by simp [login, hf, hc], ?_⟩
    have hmem := List.mem_of_find?_eq_some hf
    have hsome : (List.find? (fun x => x.id == u.id) s.users).isSome :=
      List.find?_isSome.mpr ⟨u, hmem, by simp⟩
    obtain ⟨v, hv⟩ := Option.isSome_iff_exists.mp hsome
    have hvid : v.id = u.id := by simpa using List.find?_some hv
    simp [load_user, hv, hvid]
  · intro u hf hc
    simp [login, hf, hc]
  · intro hf
    simp [login, hf]
  · intro s2 e2 p2 h1 h2
    rw [loginFlash_of_failed s email password h1,
      loginFlash_of_failed s2 e2 p2 h2]

/-- Witness for C3: Alice's correct login succeeds and resolves to id 1; a
wrong password and an unknown email both fail with the same flash. -/
theorem login_resolves_and_failure_is_generic_witness :
    login baseStore "alice@x.com" "Str0ng!Pass" =
      LoginResult.success 1 "Logged in successfully" ∧
    (load_user baseStore 1).map User.id = some 1 ∧
    login baseStore "alice@x.com" "wrong" =
      LoginResult.failure "Invalid email or password" ∧
    login baseStore "nobody@x.com" "Str0ng!Pass" =
      LoginResult.failure "Invalid email or password" := by
  have h1 := login_resolves_and_failure_is_generic baseStore "alice@x.com"
    "Str0ng!Pass"
  have h2 := login_resolves_and_failure_is_generic baseStore "alice@x.com"
    "wrong"
  have h3 := login_resolves_and_failure_is_generic baseStore "nobody@x.com"
    "Str0ng!Pass"
  refine ⟨?_, ?_, ?_, ?_⟩
  · exact (h1.1 aliceUser (by rfl) (by rfl)).1
  · exact (h1.1 aliceUser (by rfl) (by rfl)).2
  · exact h2.2.1 aliceUser (by rfl) (by rfl)
  · exact h3.2.2.1 (by rfl)

/-- C4: a registration whose email is already stored leaves the store
unchanged and reports the duplicate. -/
theorem register_duplicate_email_rejected (s : Store)
    (nm email password : String) (role? city? : Option String) (u : User)
    (hu : u ∈ s.users) (he : u.email = email) :
    (register s nm email password role? city?).1 = s ∧
    (register s nm email password role? city?).2 =
      RegisterOutcome.emailExists ∧
    registerFlash (register s nm email password role? city?).2 =
      "Email already registered" := by
  have hf : (List.find? (fun x => x.email == email) s.users).isSome :=
    List.find?_isSome.mpr ⟨u, hu, by simpa using he⟩
  refine ⟨?_, ?_, ?_⟩ <;> simp [register, hf, registerFlash]

/-- Witness for C4: re-registering Alice's email creates nothing and reports
the duplicate. -/
theorem register_duplicate_email_rejected_witness :
    (register baseStore "Mallory" "alice@x.com" "Aa1!aaaa" none none).1 =
      baseStore ∧
    (register baseStore "Mallory" "alice@x.com" "Aa1!aaaa" none none).2 =
      RegisterOutcome.emailExists ∧
    registerFlash
      (register baseStore "Mallory" "alice@x.com" "Aa1!aaaa" none none).2 =
      "Email already registered" :=
  register_duplicate_email_rejected baseStore "Mallory" "alice@x.com"
    "Aa1!aaaa" none none aliceUser (by decide) rfl

/-- C6: a missing upload, an empty filename, or a disallowed extension still
creates the Pet, stores image none, and answers with the ordinary success
redirect rather than an error. -/
theorem add_pet_upload_rejected_silently (s : Store) (u : User) (form : Form)
    (img : Option UploadedFile) (nm sp : String) (n : Int)
    (hn : formGet form "name" = some nm)
    (hsp : formGet form "species" = some sp)
    (hage : ageVal? form = some n)
    (himg : img = none ∨ ∃ f, img = some f ∧
      (f.filename = "" ∨ allowed_file f.filename = false)) :
    (add_pet_route s u form img).2 =
      AddPetResponse.redirectDashboard "Pet added successfully" ∧
    (add_pet_route s u form img).1.pets.map Pet.image =
      s.pets.map Pet.image ++ [none] := by
  have hup : uploadResult img = none := by
    rcases himg with rfl | ⟨f, rfl, hf⟩
    · rfl
    · rcases hf with hf | hf
      · simp [uploadResult, hf]
      · simp [uploadResult, hf]
  unfold add_pet_route
  rw [add_pet_ok_of s u form img hn hsp hage]
  refine ⟨rfl, ?_⟩
  simp [List.map_append, insertedPet, hup]

/-- Witness for C6: uploading "virus.exe" with Alice's creation still
creates the pet, with image none and the success redirect. -/
theorem add_pet_upload_rejected_silently_witness :
    (add_pet_route baseStore aliceUser rexFormNoAge (some badUpload)).2 =
      AddPetResponse.redirectDashboard "Pet added successfully" ∧
    (add_pet_route baseStore aliceUser rexFormNoAge
      (some badUpload)).1.pets.map Pet.image = [none] := by
  have h := add_pet_upload_rejected_silently baseStore aliceUser rexFormNoAge
    (some badUpload) "Rex" "dog" 0 rfl rfl rfl
    (Or.inr ⟨badUpload, rfl, Or.inr (by rfl)⟩)
  exact ⟨h.1, by simpa [baseStore] using h.2⟩

/-- The two branch shapes of `seedAdmin`'s user list. -/
lemma seedAdmin_users_cases (s : Store) :
    (seedAdmin s).users = s.users ∨
    (seedAdmin s).users = s.users ++ [defaultAdmin s.nextUserId] := by
  unfold seedAdmin
  split
  · exact Or.inl rfl
  · exact Or.inr rfl

/-- C7 counterexample: starting from a store in which an ordinary owner
account already holds the default admin email, seeding twice leaves exactly
one account with that email, but it does not have role admin — refuting the
claim that the remaining account is "(role admin)" from any starting
state. -/
theorem bootstrap_existing_owner_keeps_role :
    emailCount (create_admin_and_vet (create_admin_and_vet eveStore))
      "admin@janvar.com" = 1 ∧
    ((create_admin_and_vet (create_admin_and_vet eveStore)).users.filter
      (fun u => u.email == "admin@janvar.com" && u.role == "admin")).length =
      0 := by
  constructor <;> rfl

/-- C7 amended: bootstrap seeding is idempotent, and from any state with
pairwise-distinct emails, seeding twice leaves exactly one account with the
default admin email and one with the default vet email; when the respective
email was absent, the surviving account is the inserted one with role admin
(resp. vet) — a pre-existing account with a default email keeps its own
role. -/
theorem create_admin_and_vet_idempotent_unique (s : Store)
    (hnd : (s.users.map User.email).Nodup) :
    create_admin_and_vet (create_admin_and_vet s) = create_admin_and_vet s ∧
    emailCount (create_admin_and_vet (create_admin_and_vet s))
      "admin@janvar.com" = 1 ∧
    emailCount (create_admin_and_vet (create_admin_and_vet s))
      "vet@example.com" = 1 ∧
    ((∀ u ∈ s.users, u.email ≠ "admin@janvar.com") →
      ((create_admin_and_vet s).users.filter
        (fun u => u.email == "admin@janvar.com")).map User.role = ["admin"]) ∧
    ((∀ u ∈ s.users, u.email ≠ "vet@example.com") →
      ((create_admin_and_vet s).users.filter
        (fun u => u.email == "vet@example.com")).map User.role = ["vet"]) := by
  have hidem :
      create_admin_and_vet (create_admin_and_vet s) = create_admin_and_vet s := by
    apply create_eq_of_exists
    · obtain ⟨u, hu, he⟩ := seedAdmin_exists s
      exact ⟨u, mem_seedVet_of_mem hu, he⟩
    · exact seedVet_exists (seedAdmin s)
  have hcadmin : emailCount (create_admin_and_vet s) "admin@janvar.com" = 1 := by
    unfold emailCount create_admin_and_vet
    rw [filter_admin_seedVet]
    exact count_admin_seedAdmin s hnd
  have hcvet : emailCount (create_admin_and_vet s) "vet@example.com" = 1 := by
    unfold emailCount create_admin_and_vet
    exact count_vet_seedVet (seedAdmin s) (seedAdmin_nodup hnd)
  refine ⟨hidem, by rw [hidem]; exact hcadmin, by rw [hidem]; exact hcvet,
    ?_, ?_⟩
  · intro habs
    have hnone :
        List.find? (fun u => u.email == "admin@janvar.com") s.users = none :=
      List.find?_eq_none.mpr (fun x hx => by simpa using habs x hx)
    have hA : (seedAdmin s).users = s.users ++ [defaultAdmin s.nextUserId] := by
      unfold seedAdmin
      rw [hnone]
      simp
    have hfil : s.users.filter (fun u => u.email == "admin@janvar.com") = [] :=
      List.filter_eq_nil_iff.mpr (fun x hx => by simpa using habs x hx)
    unfold create_admin_and_vet
    rw [filter_admin_seedVet, hA, List.filter_append, hfil]
    simp [defaultAdmin]
  · intro habs
    have habs2 : ∀ u ∈ (seedAdmin s).users, u.email ≠ "vet@example.com" := by
      intro x hx
      rcases seedAdmin_users_cases s with hcase | hcase <;> rw [hcase] at hx
      · exact habs x hx
      · rcases List.mem_append.mp hx with hx2 | hx2
        · exact habs x hx2
        · rw [List.mem_singleton.mp hx2]
          simp [defaultAdmin]
    have hnone : List.find? (fun u => u.email == "vet@example.com")
        (seedAdmin s).users = none :=
      List.find?_eq_none.mpr (fun x hx => by simpa using habs2 x hx)
    have hV : (seedVet (seedAdmin s)).users =
        (seedAdmin s).users ++ [defaultVet (seedAdmin s).nextUserId] := by
      unfold seedVet
      rw [hnone]
      simp
    have hfil : (seedAdmin s).users.filter
        (fun u => u.email == "vet@example.com") = [] :=
      List.filter_eq_nil_iff.mpr (fun x hx => by simpa using habs2 x hx)
    unfold create_admin_and_vet
    rw [hV, List.filter_append, hfil]
    simp [defaultVet]

/-- Witness for C7's amended theorem: from the concrete one-owner store the
bootstrap is idempotent, yields one account per default email, and both
inserted accounts carry their intended roles. -/
theorem create_admin_and_vet_idempotent_unique_witness :
    create_admin_and_vet (create_admin_and_vet baseStore) =
      create_admin_and_vet baseStore ∧
    emailCount (create_admin_and_vet (create_admin_and_vet baseStore))
      "admin@janvar.com" = 1 ∧
    emailCount (create_admin_and_vet (create_admin_and_vet baseStore))
      "vet@example.com" = 1 ∧
    ((create_admin_and_vet baseStore).users.filter
      (fun u => u.email == "admin@janvar.com")).map User.role = ["admin"] ∧
    ((create_admin_and_vet baseStore).users.filter
      (fun u => u.email == "vet@example.com")).map User.role = ["vet"] := by
  have h := create_admin_and_vet_idempotent_unique baseStore (by decide)
  exact ⟨h.1, h.2.1, h.2.2.1, h.2.2.2.1 (by decide), h.2.2.2.2 (by decide)⟩

/-- C8 counterexample: the creation succeeds on age input "-5" and stores
the negative age -5, refuting the claim that every persisted Pet row has a
non-negative age. -/
theorem add_pet_negative_age_stored :
    (add_pet_route baseStore aliceUser rexFormNegAge none).2 =
      AddPetResponse.redirectDashboard "Pet added successfully" ∧
    (add_pet_route baseStore aliceUser rexFormNegAge none).1.pets.map
      Pet.age = [(-5 : Int)] ∧
    ¬ (0 : Int) ≤ -5 := by
  refine ⟨rfl, rfl, by decide⟩

/-- C8 amended: a successful creation stores exactly the parsed age (0 for
an absent or empty input), and that age is non-negative whenever no age
input contains a minus sign; a numeral with a leading minus is stored
negative as submitted. -/
theorem add_pet_age_nonneg_without_minus (s : Store) (u : User) (form : Form)
    (img : Option UploadedFile) (s2 : Store)
    (h : add_pet s u form img = Except.ok s2)
    (hm : ∀ a, formGet form "age" = some a → ('-' : Char) ∉ a.data) :
    ∀ n : Int, ageVal? form = some n →
      0 ≤ n ∧ s2.pets.map Pet.age = s.pets.map Pet.age ++ [n] := by
  intro n hage
  refine ⟨ageVal?_nonneg hm hage, ?_⟩
  obtain ⟨nm, sp, n2, hn, hsp, ha, rfl⟩ := add_pet_ok_shape h
  have hn2 : n2 = n := by
    have := ha.symm.trans hage
    simpa using this
  subst hn2
  simp [List.map_append, insertedPet]

/-- Witness for C8's amended theorem: Alice's creation with age "7" stores
the non-negative age 7. -/
theorem add_pet_age_nonneg_without_minus_witness :
    (0 : Int) ≤ 7 ∧
    (add_pet_route baseStore aliceUser rexFormAge7 none).1.pets.map Pet.age =
      [(7 : Int)] := by
  have h := add_pet_age_nonneg_without_minus baseStore aliceUser rexFormAge7
    none ((add_pet_route baseStore aliceUser rexFormAge7 none).1) (by rfl)
    (by
      intro a ha
      rw [show formGet rexFormAge7 "age" = some "7" from rfl] at ha
      cases ha
      decide)
    7 (by rfl)
  exact ⟨h.1, by simpa [baseStore] using h.2⟩

/-- C9 counterexample: an anonymous request to /logout is intercepted by the
`login_required` gate and redirected to the login view; the logout handler
never runs, refuting the claim that logout succeeds unconditionally in any
session state. -/
theorem logout_anonymous_gated :
    (logout_route Session.anonymous).2 = LogoutResponse.loginRequiredRedirect ∧
    (logout_route Session.anonymous).2 ≠ LogoutResponse.loggedOut := by
  decide

/-- C9 amended: for every authenticated session, logout clears the session
and succeeds; an anonymous request is redirected to the login view by the
authentication gate without the handler running. -/
theorem logout_clears_authenticated_session :
    (∀ uid : Nat, logout_route (Session.authed uid) =
      (Session.anonymous, LogoutResponse.loggedOut)) ∧
    logout_route Session.anonymous =
      (Session.anonymous, LogoutResponse.loginRequiredRedirect) :=
  ⟨fun _ => rfl, rfl⟩

/-- C10: a successful creation copies the stored Pet.city from the session
user's city attribute and takes the address from the form; a city value in
the form itself does not influence the run at all. -/
theorem add_pet_city_from_session_user (s : Store) (u : User) (form : Form)
    (img : Option UploadedFile) (s2 : Store)
    (h : add_pet s u form img = Except.ok s2) :
    s2.pets.map Pet.city = s.pets.map Pet.city ++ [u.city] ∧
    s2.pets.map Pet.address =
      s.pets.map Pet.address ++ [formGet form "address"] ∧
    ∀ v : String,
      add_pet s u (("city", v) :: form) img = add_pet s u form img := by
  obtain ⟨nm, sp, n, hn, hsp, ha, rfl⟩ := add_pet_ok_shape h
  refine ⟨by simp [List.map_append, insertedPet],
    by simp [List.map_append, insertedPet], ?_⟩
  intro v
  exact add_pet_ignores_key s u form img "city" v (by decide)

/-- Witness for C10: Alice's creation with a form city "Goa" stores Alice's
own city "Pune" and the form's address. -/
theorem add_pet_city_from_session_user_witness :
    (add_pet_route baseStore aliceUser rexFormCity none).1.pets.map
      Pet.city = [some "Pune"] ∧
    (add_pet_route baseStore aliceUser rexFormCity none).1.pets.map
      Pet.address = [some "12 Lane"] := by
  have h := add_pet_city_from_session_user baseStore aliceUser rexFormCity
    none ((add_pet_route baseStore aliceUser rexFormCity none).1) (by rfl)
  exact ⟨by simpa [baseStore, aliceUser] using h.1,
    by simpa [baseStore, rexFormCity, formGet] using h.2.1⟩

end Codecore

